import Mathlib

/-!
Shallow embedding of the manifest-to-inventory reconciliation engine of
`oci-clickops/platform-ci-v2` (the Python scripts under
`.github/scripts_python/` and `scripts_python/`), together with proofs
about the claims of its specification.

Python `dict`s are modelled as insertion-ordered association lists
(`Dict` below): lookup returns the value at the first matching key,
assignment updates the value of an existing key in place and otherwise
appends the new pair at the end, which is exactly CPython's observable
dict behaviour.  `d.get(k)` is modelled by an `Option`-valued field, and
`d.get(k, default)` by `Option.getD` at the use site.  Python `None` used
as a dict key (which the scripts can produce via `t.get('logical_key')`)
is modelled by the key type `Option String`.
-/

namespace PlatformCI

/-- An insertion-ordered association list modelling a Python `dict`. -/
abbrev Dict (α β : Type) : Type := List (α × β)

/-- `d[k]` / `d.get(k)`: value at the first occurrence of key `k`. -/
def dictGet {α β : Type} [DecidableEq α] : Dict α β → α → Option β
  | [], _ => none
  | (k, v) :: rest, k0 => if k = k0 then some v else dictGet rest k0

/-- `d[k] = v`: update the first occurrence of `k` in place, else append. -/
def dictSet {α β : Type} [DecidableEq α] : Dict α β → α → β → Dict α β
  | [], k0, v0 => [(k0, v0)]
  | (k, v) :: rest, k0, v0 =>
      if k = k0 then (k, v0) :: rest else (k, v) :: dictSet rest k0 v0

/-- The key sequence of a dict, in insertion order. -/
def dictKeys {α β : Type} (d : Dict α β) : List α := d.map Prod.fst

/-- Key sequence after inserting `k`: unchanged if present, else appended. -/
def addKey {α : Type} [DecidableEq α] (ks : List α) (k : α) : List α :=
  if k ∈ ks then ks else ks ++ [k]

theorem dictGet_dictSet {α β : Type} [DecidableEq α] (d : Dict α β) (k k' : α) (v : β) :
    dictGet (dictSet d k v) k' = if k = k' then some v else dictGet d k' := by
  induction d with
  | nil =>
      simp only [dictSet, dictGet]
  | cons hd tl ih =>
      obtain ⟨k1, v1⟩ := hd
      by_cases h1 : k1 = k
      · subst h1
        simp only [dictSet, if_pos rfl, dictGet]
        by_cases h2 : k1 = k' <;> simp [h2]
      · simp only [dictSet, if_neg h1, dictGet]
        by_cases h2 : k1 = k'
        · subst h2
          have : ¬ k = k1 := fun h => h1 h.symm
          simp [this]
        · simp [h2, ih]

theorem dictSet_dictSet {α β : Type} [DecidableEq α] (d : Dict α β) (k : α) (a b : β) :
    dictSet (dictSet d k a) k b = dictSet d k b := by
  induction d with
  | nil => simp [dictSet]
  | cons hd tl ih =>
      obtain ⟨k1, v1⟩ := hd
      by_cases h1 : k1 = k
      · simp [dictSet, h1]
      · simp [dictSet, h1, ih]

theorem dictKeys_dictSet {α β : Type} [DecidableEq α] (d : Dict α β) (k : α) (v : β) :
    dictKeys (dictSet d k v) = addKey (dictKeys d) k := by
  induction d with
  | nil => simp [dictSet, dictKeys, addKey]
  | cons hd tl ih =>
      obtain ⟨k1, v1⟩ := hd
      by_cases h1 : k1 = k
      · subst h1
        simp [dictSet, dictKeys, addKey, List.mem_cons]
      · have h1' : ¬ k = k1 := fun h => h1 h.symm
        simp only [dictSet, if_neg h1, dictKeys, List.map_cons]
        rw [show List.map Prod.fst (dictSet tl k v) = dictKeys (dictSet tl k v) from rfl, ih]
        by_cases h2 : k ∈ List.map Prod.fst tl
        · simp [addKey, dictKeys, h2, h1']
        · simp [addKey, dictKeys, h2, h1']

theorem dictGet_eq_none_iff {α β : Type} [DecidableEq α] (d : Dict α β) (k : α) :
    dictGet d k = none ↔ k ∉ dictKeys d := by
  induction d with
  | nil => simp [dictGet, dictKeys]
  | cons hd tl ih =>
      obtain ⟨k1, v1⟩ := hd
      by_cases h1 : k1 = k
      · subst h1
        simp [dictGet, dictKeys]
      · have h1' : ¬ k = k1 := fun h => h1 h.symm
        simp [dictGet, dictKeys, h1, h1', ih]

theorem dict_ext {α β : Type} [DecidableEq α] (d1 d2 : Dict α β)
    (hkeys : dictKeys d1 = dictKeys d2) (hnd : (dictKeys d1).Nodup)
    (hget : ∀ k, dictGet d1 k = dictGet d2 k) : d1 = d2 := by
  induction d1 generalizing d2 with
  | nil =>
      cases d2 with
      | nil => rfl
      | cons hd tl => simp [dictKeys] at hkeys
  | cons hd tl ih =>
      obtain ⟨k1, v1⟩ := hd
      cases d2 with
      | nil => simp [dictKeys] at hkeys
      | cons hd2 tl2 =>
          obtain ⟨k2, v2⟩ := hd2
          simp only [dictKeys, List.map_cons, List.cons.injEq] at hkeys
          obtain ⟨hk, hks⟩ := hkeys
          subst hk
          have hv : v1 = v2 := by
            have := hget k1
            simp [dictGet] at this
            exact this
          subst hv
          simp only [dictKeys, List.map_cons, List.nodup_cons] at hnd
          have htl : tl = tl2 := by
            refine ih tl2 hks hnd.2 ?_
            intro k
            by_cases hkk : k = k1
            · subst hkk
              have h1 : dictGet tl k = none :=
                (dictGet_eq_none_iff tl k).mpr hnd.1
              have h2 : dictGet tl2 k = none := by
                refine (dictGet_eq_none_iff tl2 k).mpr ?_
                show k ∉ List.map Prod.fst tl2
                rw [← hks]
                exact hnd.1
              rw [h1, h2]
            · have := hget k
              have hkk' : ¬ k1 = k := fun h => hkk h.symm
              simpa [dictGet, hkk'] using this
          rw [htl]

/-! ## Data model: operation manifest (`OperationManifest` of the spec)

Mirrors the JSON shapes read by `ansible_update_state.py`,
`ansible_generate_inventory.py` and `ansible_precheck.py`.  A field read
with `d.get(k)` is an `Option`; a field read with `d.get(k, default)` is
an `Option` to which `Option.getD default` is applied at the use site,
exactly where the Python code applies its default. -/

/-- One `{type, version}` element of a VM target's `agents` list. -/
structure Agent where
  type : Option String
  version : Option String
deriving DecidableEq, Repr

/-- A VM target's `ssh_config` object. -/
structure SshConfig where
  user : Option String
  become : Option Bool
  become_user : Option String
deriving DecidableEq, Repr

/-- One element of `targets.vm_resources`. -/
structure VmTarget where
  logical_key : Option String
  agents : Option (List Agent)
  ssh_config : Option SshConfig
deriving DecidableEq, Repr

/-- One element of `targets.adb_resources`. -/
structure AdbTarget where
  logical_key : Option String
  action : Option String
  wait_for_state : Option Bool
  timeout_minutes : Option Int
deriving DecidableEq, Repr

/-- The manifest's `targets` object. -/
structure Targets where
  vm_resources : Option (List VmTarget)
  adb_resources : Option (List AdbTarget)
deriving DecidableEq, Repr

/-- The manifest's `pre_checks` object. -/
structure PreChecks where
  skip_if_installed : Option Bool
  required_disk_space_mb : Option Int
deriving DecidableEq, Repr

/-- An operation manifest as the scripts read it. -/
structure Manifest where
  operation_type : Option String
  operation_version : Option String
  targets : Option Targets
  pre_checks : Option PreChecks
deriving DecidableEq, Repr

/-- `manifest.get('targets', {})`. -/
def manifest_targets (m : Manifest) : Targets := m.targets.getD ⟨none, none⟩

/-- `targets.get('vm_resources', [])`. -/
def vm_targets (m : Manifest) : List VmTarget := (manifest_targets m).vm_resources.getD []

/-- `targets.get('adb_resources', [])`. -/
def adb_targets (m : Manifest) : List AdbTarget := (manifest_targets m).adb_resources.getD []

/-- `manifest.get('pre_checks', {})`. -/
def manifest_pre_checks (m : Manifest) : PreChecks := m.pre_checks.getD ⟨none, none⟩

/-! ## Data model: state ledger (`StateLedger` of the spec)

Mirrors the JSON document written by `ansible_update_state.py` and read
back by `ansible_load_state.py`. -/

/-- One value of the per-operation `agents` map written for a VM target:
`{'version': ..., 'installed_at': ...}`. -/
structure AgentInfo where
  version : Option String
  installed_at : String
deriving DecidableEq, Repr

/-- An `OperationRecord`.  `update_state` writes one of two dict shapes:
`{'completed', 'status', 'version', 'agents'}` for a VM target and
`{'completed', 'status', 'action', 'version'}` for an ADB target. -/
inductive OperationRecord where
  | vm (completed : String) (status : String) (version : String)
       (agents : Dict (Option String) AgentInfo)
  | adb (completed : String) (status : String) (action : Option String)
        (version : String)
deriving DecidableEq, Repr

/-- The `status` field of an operation record. -/
def OperationRecord.status : OperationRecord → String
  | .vm _ s _ _ => s
  | .adb _ s _ _ => s

/-- One value of the ledger's `resources` map: `{'operations': {...}}`. -/
structure ResourceEntry where
  operations : Dict (Option String) OperationRecord
deriving DecidableEq, Repr

/-- The persisted idempotency ledger. -/
structure StateLedger where
  version : Option String
  last_updated : Option String
  resources : Dict (Option String) ResourceEntry
deriving DecidableEq, Repr

/-! ## `ansible_update_state.update_state`

The Python function mutates `state` in place; the embedding is the
equivalent state-passing function.  `datetime.utcnow().isoformat()+'Z'`
is modelled by the explicit parameter `now` (the source calls the clock
once per written timestamp; within one merge those calls all happen at
the merge time, which `now` stands for). -/

/-- A target of either loop of `update_state` (`vm_resources` first,
then `adb_resources`, in manifest order). -/
abbrev TargetU : Type := VmTarget ⊕ AdbTarget

/-- The `logical_key` the loop body keys the upsert by. -/
def TargetU.key : TargetU → Option String
  | .inl t => t.logical_key
  | .inr t => t.logical_key

/-- All targets of a manifest in the order `update_state` processes them. -/
def all_targets (m : Manifest) : List TargetU :=
  (vm_targets m).map Sum.inl ++ (adb_targets m).map Sum.inr

/-- The `agents_info` dict built for one VM target:
`agents_info[agent['type']] = {'version': ..., 'installed_at': now}`. -/
def vm_agents_info (now : String) (agents : List Agent) : Dict (Option String) AgentInfo :=
  agents.foldl (fun acc a => dictSet acc a.type ⟨a.version, now⟩) []

/-- The operation record `update_state` writes for one target. -/
def target_record (now opVersion : String) : TargetU → OperationRecord
  | .inl t => .vm now "success" opVersion (vm_agents_info now (t.agents.getD []))
  | .inr t => .adb now "success" t.action opVersion

/-- The target's current `operations` dict (`{}` when the resource entry
does not exist yet). -/
def ops_at (res : Dict (Option String) ResourceEntry) (k : Option String) :
    Dict (Option String) OperationRecord :=
  ((dictGet res k).getD ⟨[]⟩).operations

/-- One loop iteration of `update_state`: create
`state['resources'][logical_key] = {'operations': {}}` when absent, then
assign `...['operations'][operation_type] = record`. -/
def upsert_target (opType : Option String) (rec : OperationRecord)
    (res : Dict (Option String) ResourceEntry) (k : Option String) :
    Dict (Option String) ResourceEntry :=
  dictSet res k ⟨dictSet (ops_at res k) opType rec⟩

/-- Both loops of `update_state`, folded over `all_targets`. -/
def apply_list (opType : Option String) (f : TargetU → OperationRecord)
    (l : List TargetU) (res : Dict (Option String) ResourceEntry) :
    Dict (Option String) ResourceEntry :=
  l.foldl (fun acc tu => upsert_target opType (f tu) acc tu.key) res

/-- `ansible_update_state.update_state(state, manifest)` at merge time `now`. -/
def update_state (state : StateLedger) (m : Manifest) (now : String) : StateLedger :=
  { state with
    last_updated := some now
    resources :=
      apply_list m.operation_type
        (target_record now (m.operation_version.getD "1.0.0"))
        (all_targets m) state.resources }

/-- Modelled from the spec (§4.5 `merge(ledger, manifest, resolvedTargets)`):
like `update_state`, but upserting an operation record only for the
targets whose logical key is in the set `successful` of targets that
were actually executed and reported success by the external executor.
Used only to compare the claimed behaviour with `update_state`, which
takes no such set. -/
def spec_merge (state : StateLedger) (m : Manifest)
    (successful : List (Option String)) (now : String) : StateLedger :=
  { state with
    last_updated := some now
    resources :=
      apply_list m.operation_type
        (target_record now (m.operation_version.getD "1.0.0"))
        ((all_targets m).filter (fun tu => successful.contains tu.key))
        state.resources }

/-! ## Characterisation of the `update_state` fold -/

/-- The last target of `l` (in processing order) whose key is `k`. -/
def last_touch : List TargetU → Option String → Option TargetU
  | [], _ => none
  | tu :: rest, k =>
      match last_touch rest k with
      | some tv => some tv
      | none => if tu.key = k then some tu else none

theorem last_touch_eq_none_iff (l : List TargetU) (k : Option String) :
    last_touch l k = none ↔ k ∉ l.map TargetU.key := by
  induction l with
  | nil => simp [last_touch]
  | cons tu rest ih =>
      rw [List.map_cons]
      cases hrest : last_touch rest k with
      | some tv =>
          have hkmem : k ∈ rest.map TargetU.key := by
            by_contra hc
            rw [ih.mpr hc] at hrest
            exact Option.noConfusion hrest
          constructor
          · intro h
            exfalso
            simp only [last_touch, hrest] at h
            exact Option.noConfusion h
          · intro hmem
            exact absurd (List.mem_cons_of_mem _ hkmem) hmem
      | none =>
          have hrest' : k ∉ rest.map TargetU.key := ih.mp hrest
          simp only [last_touch, hrest]
          by_cases hk : tu.key = k
          · rw [if_pos hk]
            constructor
            · intro h
              exact Option.noConfusion h
            · intro hmem
              exact absurd (by rw [← hk]; exact List.mem_cons_self _ _) hmem
          · rw [if_neg hk]
            constructor
            · intro _ hmem
              rcases List.mem_cons.mp hmem with h1 | h1
              · exact hk h1.symm
              · exact hrest' h1
            · intro _
              rfl

theorem apply_list_get (opType : Option String) (f : TargetU → OperationRecord)
    (l : List TargetU) (res : Dict (Option String) ResourceEntry) (k : Option String) :
    dictGet (apply_list opType f l res) k =
      match last_touch l k with
      | some tu => some ⟨dictSet (ops_at res k) opType (f tu)⟩
      | none => dictGet res k := by
  induction l generalizing res with
  | nil => simp [apply_list, last_touch]
  | cons tu rest ih =>
      have hstep : apply_list opType f (tu :: rest) res =
          apply_list opType f rest (upsert_target opType (f tu) res tu.key) := rfl
      rw [hstep, ih]
      cases h : last_touch rest k with
      | some tv =>
          simp only [last_touch, h]
          by_cases hk : tu.key = k
          · subst hk
            have hops : ops_at (upsert_target opType (f tu) res tu.key) tu.key =
                dictSet (ops_at res tu.key) opType (f tu) := by
              simp [ops_at, upsert_target, dictGet_dictSet]
            rw [hops, dictSet_dictSet]
          · have hops : ops_at (upsert_target opType (f tu) res tu.key) k =
                ops_at res k := by
              simp [ops_at, upsert_target, dictGet_dictSet, hk]
            rw [hops]
      | none =>
          simp only [last_touch, h]
          by_cases hk : tu.key = k
          · subst hk
            simp [upsert_target, dictGet_dictSet]
          · simp [upsert_target, dictGet_dictSet, hk]

theorem dictKeys_apply_list (opType : Option String) (f : TargetU → OperationRecord)
    (l : List TargetU) (res : Dict (Option String) ResourceEntry) :
    dictKeys (apply_list opType f l res) =
      (l.map TargetU.key).foldl addKey (dictKeys res) := by
  induction l generalizing res with
  | nil => simp [apply_list]
  | cons tu rest ih =>
      have hstep : apply_list opType f (tu :: rest) res =
          apply_list opType f rest (upsert_target opType (f tu) res tu.key) := rfl
      rw [hstep, ih]
      simp [upsert_target, dictKeys_dictSet]

theorem mem_foldl_addKey_of_mem_init {α : Type} [DecidableEq α]
    (ks : List α) (K : List α) (k : α) (h : k ∈ K) : k ∈ ks.foldl addKey K := by
  induction ks generalizing K with
  | nil => simpa using h
  | cons k1 rest ih =>
      refine ih (addKey K k1) ?_
      by_cases h1 : k1 ∈ K <;> simp [addKey, h1, h]

theorem mem_foldl_addKey_of_mem {α : Type} [DecidableEq α]
    (ks : List α) (K : List α) (k : α) (h : k ∈ ks) : k ∈ ks.foldl addKey K := by
  induction ks generalizing K with
  | nil => simp at h
  | cons k1 rest ih =>
      rcases List.mem_cons.mp h with h1 | h1
      · subst h1
        refine mem_foldl_addKey_of_mem_init rest (addKey K k) k ?_
        by_cases h2 : k ∈ K <;> simp [addKey, h2]
      · exact ih (addKey K k1) h1

theorem foldl_addKey_idem {α : Type} [DecidableEq α] (ks : List α) (K : List α) :
    ks.foldl addKey (ks.foldl addKey K) = ks.foldl addKey K := by
  induction ks generalizing K with
  | nil => rfl
  | cons k1 rest ih =>
      show rest.foldl addKey (addKey (rest.foldl addKey (addKey K k1)) k1) =
        rest.foldl addKey (addKey K k1)
      have hmem : k1 ∈ rest.foldl addKey (addKey K k1) := by
        refine mem_foldl_addKey_of_mem_init rest (addKey K k1) k1 ?_
        by_cases h2 : k1 ∈ K <;> simp [addKey, h2]
      have haddK : addKey (rest.foldl addKey (addKey K k1)) k1 =
          rest.foldl addKey (addKey K k1) := by
        show (if k1 ∈ rest.foldl addKey (addKey K k1) then rest.foldl addKey (addKey K k1)
              else rest.foldl addKey (addKey K k1) ++ [k1]) = rest.foldl addKey (addKey K k1)
        exact if_pos hmem
      rw [haddK]
      exact ih (addKey K k1)

theorem nodup_addKey {α : Type} [DecidableEq α] (K : List α) (k : α)
    (h : K.Nodup) : (addKey K k).Nodup := by
  by_cases h1 : k ∈ K
  · simpa [addKey, h1] using h
  · simp [addKey, h1, List.nodup_append, h]

theorem nodup_foldl_addKey {α : Type} [DecidableEq α] (ks : List α) (K : List α)
    (h : K.Nodup) : (ks.foldl addKey K).Nodup := by
  induction ks generalizing K with
  | nil => simpa using h
  | cons k1 rest ih => exact ih (addKey K k1) (nodup_addKey K k1 h)

/-- The record per resource and operation type that the ledger holds:
`state['resources'][k]['operations'][o]`, `none` when absent. -/
def ledger_record (s : StateLedger) (k o : Option String) : Option OperationRecord :=
  (dictGet s.resources k).bind (fun e => dictGet e.operations o)

/-! ## Concrete inputs used by counterexamples and witnesses -/

/-- A VM target installing one `agentX` agent on `vm1`. -/
def exVmTarget : VmTarget := ⟨some "vm1", some [⟨some "agentX", some "2.0"⟩], none⟩

/-- A manifest with the single VM target `exVmTarget`. -/
def exManifest : Manifest :=
  ⟨some "install-agents", some "1.2.0", some ⟨some [exVmTarget], none⟩, none⟩

/-- An empty ledger, as initialised by `load_ansible_state` on 404. -/
def exLedger : StateLedger := ⟨some "1.0.0", none, []⟩

/-- A ledger holding one unrelated resource entry `other` with one record
under operation type `other-op`. -/
def exLedger2 : StateLedger :=
  ⟨some "1.0.0", some "2024-01-01T00:00:00Z",
   [(some "other", ⟨[(some "other-op", .adb "2024-01-01T00:00:00Z" "success" (some "stop") "0.9.0")]⟩)]⟩

/-- The record `update_state exLedger exManifest "t0"` writes for `vm1`. -/
def exRecord : OperationRecord :=
  .vm "t0" "success" "1.2.0" [(some "agentX", ⟨some "2.0", "t0"⟩)]

/-! ## Claims C1, C2, C3, C10 — the state-store merge -/

/-- C1 (counterexample).  The claim says `update_state` upserts an
`OperationRecord` only for those targets that were actually executed and
reported success by the external executor.  `update_state` receives no
per-target success information at all: taking the successful-target set
to be empty (no target reported success), the merge still writes a
success record for `vm1`, so the merged ledger differs from the
spec-modelled `spec_merge` with the empty successful set. -/
theorem update_state_ignores_executor_success :
    update_state exLedger exManifest "t0" ≠ spec_merge exLedger exManifest [] "t0"
    ∧ dictGet (update_state exLedger exManifest "t0").resources (some "vm1") ≠ none
    ∧ dictGet exLedger.resources (some "vm1") = none := by
  refine ⟨?_, ?_, rfl⟩ <;> decide

/-- C1 (amended).  `update_state state manifest now` behaves exactly as
the spec's `merge` applied with the successful-target set taken to be
*all* targets listed in the manifest: it upserts an `OperationRecord`
under `resources[logicalKey].operations[operation_type]` for every
manifest target regardless of executor outcome, sets `last_updated` to
the merge time, and leaves every other entry unchanged. -/
theorem update_state_eq_spec_merge_all (state : StateLedger) (m : Manifest) (now : String) :
    update_state state m now = spec_merge state m ((all_targets m).map TargetU.key) now := by
  unfold update_state spec_merge
  have hfilter : (all_targets m).filter
      (fun tu => ((all_targets m).map TargetU.key).contains tu.key) = all_targets m := by
    refine List.filter_eq_self.mpr ?_
    intro tu htu
    exact List.elem_eq_true_of_mem (List.mem_map_of_mem TargetU.key htu)
  rw [hfilter]

/-- C2 (counterexample).  The claim says a second merge changes nothing
in `resources` except the ledger-level `lastUpdated` field.  In fact the
second merge also rewrites the `completed` and `installed_at` timestamps
*inside* the resource records: merging `exManifest` at time `t1` and
again at `t2` yields a `resources` map different from the one a single
merge at `t1` produced. -/
theorem update_state_twice_changes_resources :
    (update_state (update_state exLedger exManifest "t1") exManifest "t2").resources ≠
      (update_state exLedger exManifest "t1").resources := by
  decide

/-- C2 (amended).  Merging twice with the same manifest collapses to a
single merge at the second merge time: for a ledger whose `resources`
keys are distinct (every dict loaded from JSON satisfies this),
`update_state (update_state L M t1) M t2 = update_state L M t2`.  In
particular the `resources` content is idempotent up to the embedded
merge timestamps, and with equal merge times the merge is literally
idempotent. -/
theorem update_state_idempotent (state : StateLedger) (m : Manifest) (t1 t2 : String)
    (hnd : (dictKeys state.resources).Nodup) :
    update_state (update_state state m t1) m t2 = update_state state m t2 := by
  obtain ⟨v, lu, D⟩ := state
  simp only [update_state]
  simp only at hnd
  refine congrArg (StateLedger.mk v (some t2)) ?_
  set op := m.operation_type
  set l := all_targets m
  set f1 := target_record t1 (m.operation_version.getD "1.0.0")
  set f2 := target_record t2 (m.operation_version.getD "1.0.0")
  have hkeys1 : dictKeys (apply_list op f1 l D) = (l.map TargetU.key).foldl addKey (dictKeys D) :=
    dictKeys_apply_list op f1 l D
  refine dict_ext _ _ ?_ ?_ ?_
  · rw [dictKeys_apply_list op f2 l (apply_list op f1 l D), hkeys1, foldl_addKey_idem,
      ← dictKeys_apply_list op f2 l D]
  · rw [dictKeys_apply_list op f2 l (apply_list op f1 l D), hkeys1, foldl_addKey_idem]
    exact nodup_foldl_addKey _ _ hnd
  · intro k
    rw [apply_list_get op f2 l (apply_list op f1 l D) k, apply_list_get op f2 l D k]
    cases hlt : last_touch l k with
    | some tu =>
        have hinner : dictGet (apply_list op f1 l D) k =
            some ⟨dictSet (ops_at D k) op (f1 tu)⟩ := by
          rw [apply_list_get op f1 l D k, hlt]
        simp only [ops_at, hinner, Option.getD_some, dictSet_dictSet]
    | none =>
        rw [apply_list_get op f1 l D k, hlt]

/-- C3 (confirmed).  The merge is frame-preserving: a logical key not
touched by any manifest target keeps its `resources` entry byte-for-byte
(the looked-up entry is unchanged), and for every key the records under
operation types other than `manifest['operation_type']` are unchanged
(the ledger is merge-only; no entry is ever removed). -/
theorem update_state_frame (state : StateLedger) (m : Manifest) (now : String) :
    (∀ k, k ∉ (all_targets m).map TargetU.key →
        dictGet (update_state state m now).resources k = dictGet state.resources k)
    ∧ (∀ k o, o ≠ m.operation_type →
        ledger_record (update_state state m now) k o = ledger_record state k o) := by
  constructor
  · intro k hk
    show dictGet (apply_list _ _ _ _) k = _
    rw [apply_list_get, (last_touch_eq_none_iff _ _).mpr hk]
  · intro k o ho
    have hne : ¬ m.operation_type = o := fun h => ho h.symm
    show (dictGet (apply_list _ _ _ _) k).bind _ = _
    rw [apply_list_get]
    cases hlt : last_touch (all_targets m) k with
    | some tu =>
        show (some (⟨dictSet (ops_at state.resources k) m.operation_type _⟩ : ResourceEntry)).bind
          (fun e => dictGet e.operations o) = _
        rw [Option.some_bind]
        show dictGet (dictSet (ops_at state.resources k) m.operation_type _) o = _
        rw [dictGet_dictSet, if_neg hne]
        unfold ledger_record ops_at
        cases hD : dictGet state.resources k with
        | none => simp [dictGet]
        | some e => simp
    | none => rfl

/-- C3 (witness). -/
theorem update_state_frame_witness :
    dictGet (update_state exLedger2 exManifest "t0").resources (some "other") =
      dictGet exLedger2.resources (some "other")
    ∧ ledger_record (update_state exLedger2 exManifest "t0") (some "other") (some "other-op") =
        ledger_record exLedger2 (some "other") (some "other-op") :=
  ⟨(update_state_frame exLedger2 exManifest "t0").1 (some "other") (by decide),
   (update_state_frame exLedger2 exManifest "t0").2 (some "other") (some "other-op") (by decide)⟩

/-- Every record `update_state` writes is built by `target_record`,
whose `status` is the literal `'success'`. -/
theorem target_record_status (now opVersion : String) (tu : TargetU) :
    (target_record now opVersion tu).status = "success" := by
  cases tu <;> rfl

/-- C10 (confirmed).  `update_state` never records a failure: any record
present in the merged ledger either was already present, unchanged, in
the input ledger, or has `status = 'success'`. -/
theorem update_state_status_success (state : StateLedger) (m : Manifest) (now : String)
    (k o : Option String) (r : OperationRecord)
    (h : ledger_record (update_state state m now) k o = some r) :
    ledger_record state k o = some r ∨ r.status = "success" := by
  unfold ledger_record at h
  have hget : dictGet (update_state state m now).resources k =
      dictGet (apply_list m.operation_type
        (target_record now (m.operation_version.getD "1.0.0")) (all_targets m)
        state.resources) k := rfl
  rw [hget, apply_list_get] at h
  cases hlt : last_touch (all_targets m) k with
  | some tu =>
      rw [hlt] at h
      rw [Option.some_bind] at h
      rw [show dictGet (⟨dictSet (ops_at state.resources k) m.operation_type
            (target_record now (m.operation_version.getD "1.0.0") tu)⟩ : ResourceEntry).operations o
          = dictGet (dictSet (ops_at state.resources k) m.operation_type
            (target_record now (m.operation_version.getD "1.0.0") tu)) o from rfl,
        dictGet_dictSet] at h
      by_cases ho : m.operation_type = o
      · rw [if_pos ho] at h
        right
        rw [← Option.some_inj.mp h]
        exact target_record_status _ _ _
      · rw [if_neg ho] at h
        left
        unfold ledger_record
        unfold ops_at at h
        cases hD : dictGet state.resources k with
        | none =>
            rw [hD] at h
            simp [dictGet] at h
        | some e =>
            rw [hD] at h
            simpa using h
  | none =>
      rw [hlt] at h
      exact Or.inl h

/-- C10 (witness). -/
theorem update_state_status_success_witness :
    ledger_record exLedger (some "vm1") (some "install-agents") = some exRecord
    ∨ exRecord.status = "success" :=
  update_state_status_success exLedger exManifest "t0" (some "vm1") (some "install-agents")
    exRecord (by decide)

/-- C2 (witness for the amended theorem). -/
theorem update_state_idempotent_witness :
    update_state (update_state exLedger2 exManifest "t1") exManifest "t2" =
      update_state exLedger2 exManifest "t2" :=
  update_state_idempotent exLedger2 exManifest "t1" "t2" (by decide)

/-! ## `ansible_generate_inventory.parse_terraform_outputs`

The Terraform state snapshot (`{resources: [{type, name, instances:
[{attributes: {...}}]}]}`) and the `resources_map` it is parsed into. -/

/-- The attribute fields of a state-snapshot instance that the parser
reads. -/
structure TfAttrs where
  display_name : Option String
  id : Option String
  private_ip : Option String
  public_ip : Option String
  state : Option String
  db_name : Option String
  lifecycle_state : Option String
  connection_urls : Option (Dict String String)
  defined_tags : Option (Dict String String)
  freeform_tags : Option (Dict String String)
deriving DecidableEq, Repr

/-- An instance attribute record with every field absent. -/
def emptyAttrs : TfAttrs := ⟨none, none, none, none, none, none, none, none, none, none⟩

/-- One element of a resource's `instances` list. -/
structure TfInstance where
  attributes : Option TfAttrs
deriving DecidableEq, Repr

/-- One element of the snapshot's `resources` list. -/
structure TfResource where
  type : Option String
  name : Option String
  instances : Option (List TfInstance)
deriving DecidableEq, Repr

/-- A parsed Terraform state snapshot (`None` models a snapshot that was
not found or failed to parse, for which `download_terraform_state`
returns `None`). -/
structure TfState where
  resources : Option (List TfResource)
deriving DecidableEq, Repr

/-- One value of `resources_map`: the dict literal built for an
`oci_core_instance` (`'type': 'compute'`) or an
`oci_database_autonomous_database` (`'type': 'adb'`). -/
inductive ResourceInfo where
  | compute (ocid private_ip public_ip state : Option String)
            (defined_tags freeform_tags : Dict String String)
  | adb (ocid db_name state : Option String) (connection_urls : Dict String String)
        (defined_tags freeform_tags : Dict String String)
deriving DecidableEq, Repr

/-- `resource_info.get('private_ip')`: present only on compute records. -/
def ResourceInfo.private_ip : ResourceInfo → Option String
  | .compute _ p _ _ _ _ => p
  | .adb _ _ _ _ _ _ => none

/-- `resource_info.get('ocid')`. -/
def ResourceInfo.ocid : ResourceInfo → Option String
  | .compute o _ _ _ _ _ => o
  | .adb o _ _ _ _ _ => o

/-- `resource_info.get('state')`. -/
def ResourceInfo.state : ResourceInfo → Option String
  | .compute _ _ _ s _ _ => s
  | .adb _ _ s _ _ _ => s

/-- `resource_info.get('db_name')`: present only on adb records. -/
def ResourceInfo.db_name : ResourceInfo → Option String
  | .compute _ _ _ _ _ _ => none
  | .adb _ d _ _ _ _ => d

/-- `resource_info.get('freeform_tags', {})`. -/
def ResourceInfo.freeform_tags : ResourceInfo → Dict String String
  | .compute _ _ _ _ _ f => f
  | .adb _ _ _ _ _ f => f

/-- The entry one snapshot instance contributes to `resources_map`:
`none` for unrecognized resource types (ignored, forward-compatible).
The logical key is `attrs.get('display_name', resource_name)`. -/
def mk_tf_entry (r : TfResource) (inst : TfInstance) :
    Option (Option String × ResourceInfo) :=
  let attrs := inst.attributes.getD emptyAttrs
  match r.type with
  | some "oci_core_instance" =>
      some (attrs.display_name <|> r.name,
        .compute attrs.id attrs.private_ip attrs.public_ip attrs.state
          (attrs.defined_tags.getD []) (attrs.freeform_tags.getD []))
  | some "oci_database_autonomous_database" =>
      some (attrs.display_name <|> r.name,
        .adb attrs.id attrs.db_name attrs.lifecycle_state
          (attrs.connection_urls.getD []) (attrs.defined_tags.getD [])
          (attrs.freeform_tags.getD []))
  | _ => none

/-- The recognized `(logical_key, resource_info)` pairs of a snapshot, in
traversal order (resources outer, instances inner). -/
def tf_entries (s : Option TfState) : List (Option String × ResourceInfo) :=
  match s with
  | none => []
  | some st =>
      (st.resources.getD []).flatMap
        (fun r => (r.instances.getD []).filterMap (mk_tf_entry r))

/-- `parse_terraform_outputs(state_data)`: insert every recognized entry
into the single `resources_map` dict, in traversal order. -/
def parse_terraform_outputs (s : Option TfState) : Dict (Option String) ResourceInfo :=
  (tf_entries s).foldl (fun acc e => dictSet acc e.1 e.2) []

/-- The last pair of `l` whose key is `k`. -/
def last_entry {β : Type} (l : List (Option String × β)) (k : Option String) : Option β :=
  match l with
  | [] => none
  | e :: rest =>
      match last_entry rest k with
      | some v => some v
      | none => if e.1 = k then some e.2 else none

theorem dictGet_foldl_dictSet {β : Type} (l : List (Option String × β))
    (d : Dict (Option String) β) (k : Option String) :
    dictGet (l.foldl (fun acc e => dictSet acc e.1 e.2) d) k =
      match last_entry l k with
      | some v => some v
      | none => dictGet d k := by
  induction l generalizing d with
  | nil => simp [last_entry]
  | cons e rest ih =>
      rw [show (e :: rest).foldl (fun acc e => dictSet acc e.1 e.2) d =
            rest.foldl (fun acc e => dictSet acc e.1 e.2) (dictSet d e.1 e.2) from rfl, ih]
      cases hlt : last_entry rest k with
      | some v => simp [last_entry, hlt]
      | none =>
          simp only [last_entry, hlt]
          by_cases hk : e.1 = k
          · rw [if_pos hk, dictGet_dictSet, if_pos hk]
          · rw [if_neg hk, dictGet_dictSet, if_neg hk]

/-! ## Claim C8 — logical-key uniqueness in the parser output -/

/-- A snapshot holding a compute instance named `x` followed by an
autonomous database also named `x`. -/
def exSnapshot : TfState :=
  ⟨some
    [⟨some "oci_core_instance", some "x",
      some [⟨some ⟨some "x", some "ocid.vm", some "10.0.0.5", none, some "RUNNING",
                   none, none, none, none, none⟩⟩]⟩,
     ⟨some "oci_database_autonomous_database", some "x",
      some [⟨some ⟨some "x", some "ocid.adb", none, none, none,
                   some "xdb", some "AVAILABLE", none, none, none⟩⟩]⟩]⟩

/-- C8 (counterexample).  The claim says kinds do not interfere with
each other's keys.  They do: `resources_map` is a single dict shared by
every resource kind, so the later ADB entry named `x` replaces the
earlier compute entry named `x` — the parse of `exSnapshot` has exactly
one entry, the ADB one, and the compute record is gone. -/
theorem parse_terraform_outputs_kinds_share_namespace :
    parse_terraform_outputs (some exSnapshot) =
      [(some "x", .adb (some "ocid.adb") (some "xdb") (some "AVAILABLE") [] [] [])] := by
  decide

/-- C8 (amended).  Logical keys are unique across the parser's whole
output map, in a single namespace shared by all resource kinds: for
every snapshot and key, the output maps the key to the resource info of
the *last* recognized occurrence of that key in traversal order
(last-write-wins), whether the colliding occurrences are of the same
kind or of different kinds. -/
theorem parse_terraform_outputs_last_wins (s : Option TfState) (k : Option String) :
    dictGet (parse_terraform_outputs s) k =
      match last_entry (tf_entries s) k with
      | some v => some v
      | none => none := by
  rw [parse_terraform_outputs, dictGet_foldl_dictSet]
  cases last_entry (tf_entries s) k <;> rfl

/-! ## `ansible_generate_inventory.build_ansible_inventory` -/

/-- Python truthiness of an optional string (`if ansible_host:`):
`None` and `''` are falsy. -/
def pyTruthyStr : Option String → Bool
  | none => false
  | some s => if s = "" then false else true

/-- The host-vars dict built for a resolved VM target.  The constant
`ansible_python_interpreter = '/usr/bin/python3'` is omitted. -/
structure VmHostVars where
  ansible_host : Option String
  ansible_user : String
  ansible_become : Bool
  ansible_become_user : String
  oci_ocid : Option String
  oci_state : Option String
  agents : List Agent
  resource_tags : Dict String String
deriving DecidableEq, Repr

/-- The host-vars dict built for a resolved ADB target.  The constant
`ansible_connection = 'local'` is omitted. -/
structure AdbHostVars where
  oci_ocid : Option String
  oci_state : Option String
  db_name : Option String
  action : Option String
  wait_for_state : Bool
  timeout_minutes : Int
  resource_tags : Dict String String
deriving DecidableEq, Repr

/-- An entry of `inventory['_meta']['hostvars']`. -/
inductive HostVars where
  | vm (v : VmHostVars)
  | adb (a : AdbHostVars)
deriving DecidableEq, Repr

/-- `host_vars.get('resource_tags', {})` (used by the precheck). -/
def HostVars.resource_tags : HostVars → Dict String String
  | .vm v => v.resource_tags
  | .adb a => a.resource_tags

/-- The host vars assigned for a resolved VM target (lines 164-174 of
`ansible_generate_inventory.py`). -/
def vm_host_vars (t : VmTarget) (info : ResourceInfo) : VmHostVars :=
  let ssh := t.ssh_config.getD ⟨none, none, none⟩
  ⟨info.private_ip, ssh.user.getD "opc", ssh.become.getD true, ssh.become_user.getD "root",
   info.ocid, info.state, t.agents.getD [], info.freeform_tags⟩

/-- The host vars assigned for a resolved ADB target (lines 191-200). -/
def adb_host_vars (t : AdbTarget) (info : ResourceInfo) : AdbHostVars :=
  ⟨info.ocid, info.state, info.db_name, t.action,
   t.wait_for_state.getD true, t.timeout_minutes.getD 30, info.freeform_tags⟩

/-- The inventory structure; the constant `all.children` group list is
omitted. -/
structure Inventory where
  compute_hosts : List (Option String)
  adb_hosts : List (Option String)
  hostvars : Dict (Option String) HostVars
deriving DecidableEq, Repr

/-- The warning-class events `build_ansible_inventory` prints.  The
source emits them as `print('Warning: ...')` f-strings naming the
logical key; only the event and the key are modelled. -/
inductive InvWarning where
  | vmNotFound (k : Option String)
  | vmNoIp (k : Option String)
  | adbNotFound (k : Option String)
deriving DecidableEq, Repr

/-- One iteration of the VM-target loop. -/
def build_vm_step (rmap : Dict (Option String) ResourceInfo)
    (acc : Inventory × List InvWarning) (t : VmTarget) : Inventory × List InvWarning :=
  match dictGet rmap t.logical_key with
  | some info =>
      if pyTruthyStr info.private_ip then
        ({ acc.1 with
            compute_hosts := acc.1.compute_hosts ++ [t.logical_key]
            hostvars := dictSet acc.1.hostvars t.logical_key (.vm (vm_host_vars t info)) },
         acc.2)
      else (acc.1, acc.2 ++ [.vmNoIp t.logical_key])
  | none => (acc.1, acc.2 ++ [.vmNotFound t.logical_key])

/-- One iteration of the ADB-target loop. -/
def build_adb_step (rmap : Dict (Option String) ResourceInfo)
    (acc : Inventory × List InvWarning) (t : AdbTarget) : Inventory × List InvWarning :=
  match dictGet rmap t.logical_key with
  | some info =>
      ({ acc.1 with
          adb_hosts := acc.1.adb_hosts ++ [t.logical_key]
          hostvars := dictSet acc.1.hostvars t.logical_key (.adb (adb_host_vars t info)) },
       acc.2)
  | none => (acc.1, acc.2 ++ [.adbNotFound t.logical_key])

/-- `build_ansible_inventory(manifest, resources_map)`: process
`vm_resources` then `adb_resources` in manifest order.  The function is
total: no target can make it raise or exit. -/
def build_ansible_inventory (m : Manifest) (rmap : Dict (Option String) ResourceInfo) :
    Inventory × List InvWarning :=
  (adb_targets m).foldl (build_adb_step rmap)
    ((vm_targets m).foldl (build_vm_step rmap) (⟨[], [], []⟩, []))

theorem mem_snd_foldl_vm (rmap : Dict (Option String) ResourceInfo)
    (l : List VmTarget) (acc : Inventory × List InvWarning) (w : InvWarning)
    (h : w ∈ acc.2) : w ∈ (l.foldl (build_vm_step rmap) acc).2 := by
  induction l generalizing acc with
  | nil => simpa using h
  | cons t rest ih =>
      refine ih (build_vm_step rmap acc t) ?_
      unfold build_vm_step
      cases dictGet rmap t.logical_key with
      | some info =>
          by_cases hp : pyTruthyStr info.private_ip

          · simpa [hp] using h
          · simp only [hp]
            exact List.mem_append_left _ h
      | none => exact List.mem_append_left _ h

theorem mem_snd_foldl_adb (rmap : Dict (Option String) ResourceInfo)
    (l : List AdbTarget) (acc : Inventory × List InvWarning) (w : InvWarning)
    (h : w ∈ acc.2) : w ∈ (l.foldl (build_adb_step rmap) acc).2 := by
  induction l generalizing acc with
  | nil => simpa using h
  | cons t rest ih =>
      refine ih (build_adb_step rmap acc t) ?_
      unfold build_adb_step
      cases dictGet rmap t.logical_key with
      | some info => simpa using h
      | none => exact List.mem_append_left _ h

theorem vm_warning_not_found (rmap : Dict (Option String) ResourceInfo)
    (l : List VmTarget) (acc : Inventory × List InvWarning) (t : VmTarget)
    (ht : t ∈ l) (h : dictGet rmap t.logical_key = none) :
    InvWarning.vmNotFound t.logical_key ∈ (l.foldl (build_vm_step rmap) acc).2 := by
  induction l generalizing acc with
  | nil => simp at ht
  | cons t1 rest ih =>
      rcases List.mem_cons.mp ht with h1 | h1
      · subst h1
        refine mem_snd_foldl_vm rmap rest (build_vm_step rmap acc t) _ ?_
        unfold build_vm_step
        rw [h]
        exact List.mem_append_right _ (List.mem_singleton.mpr rfl)
      · exact ih (build_vm_step rmap acc t1) h1

theorem vm_warning_no_ip (rmap : Dict (Option String) ResourceInfo)
    (l : List VmTarget) (acc : Inventory × List InvWarning) (t : VmTarget)
    (info : ResourceInfo) (ht : t ∈ l) (h : dictGet rmap t.logical_key = some info)
    (hp : pyTruthyStr info.private_ip = false) :
    InvWarning.vmNoIp t.logical_key ∈ (l.foldl (build_vm_step rmap) acc).2 := by
  induction l generalizing acc with
  | nil => simp at ht
  | cons t1 rest ih =>
      rcases List.mem_cons.mp ht with h1 | h1
      · subst h1
        refine mem_snd_foldl_vm rmap rest (build_vm_step rmap acc t) _ ?_
        unfold build_vm_step
        rw [h]
        simp only [hp]
        exact List.mem_append_right _ (List.mem_singleton.mpr rfl)
      · exact ih (build_vm_step rmap acc t1) h1

theorem adb_warning_not_found (rmap : Dict (Option String) ResourceInfo)
    (l : List AdbTarget) (acc : Inventory × List InvWarning) (t : AdbTarget)
    (ht : t ∈ l) (h : dictGet rmap t.logical_key = none) :
    InvWarning.adbNotFound t.logical_key ∈ (l.foldl (build_adb_step rmap) acc).2 := by
  induction l generalizing acc with
  | nil => simp at ht
  | cons t1 rest ih =>
      rcases List.mem_cons.mp ht with h1 | h1
      · subst h1
        refine mem_snd_foldl_adb rmap rest (build_adb_step rmap acc t) _ ?_
        unfold build_adb_step
        rw [h]
        exact List.mem_append_right _ (List.mem_singleton.mpr rfl)
      · exact ih (build_adb_step rmap acc t1) h1

/-- A key enters `compute_instances.hosts` only when its resource record
exists and has a truthy `private_ip`. -/
def vm_resolved (rmap : Dict (Option String) ResourceInfo) (k : Option String) : Prop :=
  ∃ info, dictGet rmap k = some info ∧ pyTruthyStr info.private_ip = true

theorem compute_hosts_resolved_foldl (rmap : Dict (Option String) ResourceInfo)
    (l : List VmTarget) (acc : Inventory × List InvWarning)
    (hacc : ∀ k, k ∈ acc.1.compute_hosts → vm_resolved rmap k) :
    ∀ k, k ∈ (l.foldl (build_vm_step rmap) acc).1.compute_hosts → vm_resolved rmap k := by
  induction l generalizing acc with
  | nil => simpa using hacc
  | cons t rest ih =>
      refine ih (build_vm_step rmap acc t) ?_
      intro k hk
      unfold build_vm_step at hk
      cases hg : dictGet rmap t.logical_key with
      | some info =>
          rw [hg] at hk
          by_cases hp : pyTruthyStr info.private_ip
          · simp only [hp, if_true] at hk
            rcases List.mem_append.mp hk with h1 | h1
            · exact hacc k h1
            · rw [List.mem_singleton.mp h1]
              exact ⟨info, hg, hp⟩
          · simp only [hp] at hk
            exact hacc k hk
      | none =>
          rw [hg] at hk
          exact hacc k hk

theorem adb_fold_compute_hosts (rmap : Dict (Option String) ResourceInfo)
    (l : List AdbTarget) (acc : Inventory × List InvWarning) :
    (l.foldl (build_adb_step rmap) acc).1.compute_hosts = acc.1.compute_hosts := by
  induction l generalizing acc with
  | nil => rfl
  | cons t rest ih =>
      rw [show (t :: rest).foldl (build_adb_step rmap) acc =
            rest.foldl (build_adb_step rmap) (build_adb_step rmap acc t) from rfl,
        ih (build_adb_step rmap acc t)]
      unfold build_adb_step
      cases dictGet rmap t.logical_key <;> rfl

theorem vm_fold_adb_hosts (rmap : Dict (Option String) ResourceInfo)
    (l : List VmTarget) (acc : Inventory × List InvWarning) :
    (l.foldl (build_vm_step rmap) acc).1.adb_hosts = acc.1.adb_hosts := by
  induction l generalizing acc with
  | nil => rfl
  | cons t rest ih =>
      rw [show (t :: rest).foldl (build_vm_step rmap) acc =
            rest.foldl (build_vm_step rmap) (build_vm_step rmap acc t) from rfl,
        ih (build_vm_step rmap acc t)]
      unfold build_vm_step
      cases dictGet rmap t.logical_key with
      | some info => by_cases hp : pyTruthyStr info.private_ip <;> simp [hp]
      | none => rfl

theorem adb_hosts_resolved_foldl (rmap : Dict (Option String) ResourceInfo)
    (l : List AdbTarget) (acc : Inventory × List InvWarning)
    (hacc : ∀ k, k ∈ acc.1.adb_hosts → (dictGet rmap k).isSome = true) :
    ∀ k, k ∈ (l.foldl (build_adb_step rmap) acc).1.adb_hosts →
      (dictGet rmap k).isSome = true := by
  induction l generalizing acc with
  | nil => simpa using hacc
  | cons t rest ih =>
      refine ih (build_adb_step rmap acc t) ?_
      intro k hk
      unfold build_adb_step at hk
      cases hg : dictGet rmap t.logical_key with
      | some info =>
          rw [hg] at hk
          rcases List.mem_append.mp hk with h1 | h1
          · exact hacc k h1
          · rw [List.mem_singleton.mp h1, hg]
            rfl
      | none =>
          rw [hg] at hk
          exact hacc k hk

/-! ## `scripts_python/ansible_inventory.build_inventory`

The standalone inventory script.  Its manifest has a different shape:
`targets` is a flat list of ADB operations keyed by `display_name`. -/

/-- One element of the standalone manifest's `targets` list. -/
structure SimpleAdbTarget where
  display_name : Option String
  action : Option String
  wait_for_state : Option Bool
  timeout_minutes : Option Int
deriving DecidableEq, Repr

/-- The standalone script's manifest. -/
structure SimpleManifest where
  targets : Option (List SimpleAdbTarget)
deriving DecidableEq, Repr

/-- One value of `parse_adb_resources`' `adb_map`. -/
structure AdbInfo where
  ocid : Option String
  db_name : Option String
  state : Option String
  freeform_tags : Dict String String
deriving DecidableEq, Repr

/-- The hostvars dict the standalone script builds per host
(`ansible_connection = 'local'` constant omitted). -/
structure Adb2HostVars where
  oci_ocid : Option String
  oci_state : Option String
  db_name : Option String
  action : Option String
  wait_for_state : Bool
  timeout_minutes : Int
deriving DecidableEq, Repr

/-- The standalone script's inventory (`adb_instances.hosts` is a dict
from name to `{}`). -/
structure Inventory2 where
  adb_hosts : Dict (Option String) Unit
  hostvars : Dict (Option String) Adb2HostVars
deriving DecidableEq, Repr

/-- `build_inventory(manifest, adb_map)`.  When a target's
`display_name` is not in `adb_map` the script prints an error and calls
`sys.exit(1)`, modelled as `Except.error` carrying the missing name. -/
def build_inventory (m : SimpleManifest) (adb_map : Dict (Option String) AdbInfo) :
    Except (Option String) Inventory2 :=
  (m.targets.getD []).foldlM
    (fun inv t =>
      match dictGet adb_map t.display_name with
      | none => .error t.display_name
      | some info =>
          .ok { adb_hosts := dictSet inv.adb_hosts t.display_name ()
                hostvars := dictSet inv.hostvars t.display_name
                  ⟨info.ocid, info.state, info.db_name, t.action,
                   t.wait_for_state.getD true, t.timeout_minutes.getD 30⟩ })
    ⟨[], []⟩

/-! ## Claim C4 — unresolved targets -/

/-- C4 (counterexample).  The claim says a ManagedDatabase target whose
logical key has no matching record never aborts inventory building.
That holds for `build_ansible_inventory`, but the repository's second
inventory builder, `scripts_python/ansible_inventory.build_inventory`
(also cited by the claim), exits fatally — here, a manifest naming `db2`
against an empty resource map errors out instead of warn-and-skip. -/
theorem build_inventory_aborts_on_unresolved :
    build_inventory ⟨some [⟨some "db2", some "start", none, none⟩]⟩ [] =
      .error (some "db2") := by
  rfl

/-- C4 (amended).  For `build_ansible_inventory` (the GitHub-Actions
inventory builder) the claim holds: a Compute target with no matching
record, or whose record has a falsy (absent or empty) `private_ip`, and
a ManagedDatabase target with no matching record, each produce a
warning event and contribute no actionable host, and the builder — a
total function — never aborts; every emitted host is backed by a
matching record (with truthy `private_ip` for compute hosts).  The
standalone `build_inventory` of `scripts_python/ansible_inventory.py`,
by contrast, exits fatally on the first unresolved target. -/
theorem build_ansible_inventory_unresolved (m : Manifest)
    (rmap : Dict (Option String) ResourceInfo) :
    (∀ t, t ∈ vm_targets m → dictGet rmap t.logical_key = none →
        InvWarning.vmNotFound t.logical_key ∈ (build_ansible_inventory m rmap).2)
    ∧ (∀ t info, t ∈ vm_targets m → dictGet rmap t.logical_key = some info →
        pyTruthyStr info.private_ip = false →
        InvWarning.vmNoIp t.logical_key ∈ (build_ansible_inventory m rmap).2)
    ∧ (∀ t, t ∈ adb_targets m → dictGet rmap t.logical_key = none →
        InvWarning.adbNotFound t.logical_key ∈ (build_ansible_inventory m rmap).2)
    ∧ (∀ k, k ∈ (build_ansible_inventory m rmap).1.compute_hosts → vm_resolved rmap k)
    ∧ (∀ k, k ∈ (build_ansible_inventory m rmap).1.adb_hosts →
        (dictGet rmap k).isSome = true) := by
  refine ⟨?_, ?_, ?_, ?_, ?_⟩
  · intro t ht h
    exact mem_snd_foldl_adb rmap _ _ _ (vm_warning_not_found rmap _ _ t ht h)
  · intro t info ht h hp
    exact mem_snd_foldl_adb rmap _ _ _ (vm_warning_no_ip rmap _ _ t info ht h hp)
  · intro t ht h
    exact adb_warning_not_found rmap _ _ t ht h
  · intro k hk
    rw [show (build_ansible_inventory m rmap).1.compute_hosts =
          ((vm_targets m).foldl (build_vm_step rmap) (⟨[], [], []⟩, [])).1.compute_hosts
        from adb_fold_compute_hosts rmap _ _] at hk
    exact compute_hosts_resolved_foldl rmap _ _ (by intro k hk1; simp at hk1) k hk
  · intro k hk
    refine adb_hosts_resolved_foldl rmap _ _ ?_ k hk
    intro k1 hk1
    rw [vm_fold_adb_hosts rmap _ _] at hk1
    simp at hk1

/-- A manifest whose VM targets `vm2` (no record) and `vm3` (record with
empty `private_ip`) and ADB target `db2` (no record) are all
unresolved. -/
def exManifest4 : Manifest :=
  ⟨some "install-agents", none,
   some ⟨some [⟨some "vm2", none, none⟩, ⟨some "vm3", none, none⟩],
         some [⟨some "db2", some "start", none, none⟩]⟩,
   none⟩

/-- A resource map holding only `vm3`, with an empty network address. -/
def exRmap4 : Dict (Option String) ResourceInfo :=
  [(some "vm3", .compute (some "ocid.vm3") (some "") none (some "RUNNING") [] [])]

/-- C4 (witness). -/
theorem build_ansible_inventory_unresolved_witness :
    InvWarning.vmNotFound (some "vm2") ∈ (build_ansible_inventory exManifest4 exRmap4).2
    ∧ InvWarning.vmNoIp (some "vm3") ∈ (build_ansible_inventory exManifest4 exRmap4).2
    ∧ InvWarning.adbNotFound (some "db2") ∈ (build_ansible_inventory exManifest4 exRmap4).2 :=
  ⟨(build_ansible_inventory_unresolved exManifest4 exRmap4).1
      ⟨some "vm2", none, none⟩ (by decide) (by decide),
   (build_ansible_inventory_unresolved exManifest4 exRmap4).2.1
      ⟨some "vm3", none, none⟩ (.compute (some "ocid.vm3") (some "") none (some "RUNNING") [] [])
      (by decide) (by decide) (by decide),
   (build_ansible_inventory_unresolved exManifest4 exRmap4).2.2.1
      ⟨some "db2", some "start", none, none⟩ (by decide) (by decide)⟩

/-! ## `ansible_precheck.check_skip_if_installed` -/

/-- Python `str(...)` of an optional string as an f-string renders it:
`None` becomes `"None"`. -/
def pyStrOpt : Option String → String
  | none => "None"
  | some s => s

/-- `f"{agent_type}_agent_installed"`. -/
def tag_key (agent_type : Option String) : String :=
  pyStrOpt agent_type ++ "_agent_installed"

/-- `inventory.get('_meta', {}).get('hostvars', {}).get(logical_key, {})
.get('resource_tags', {})`. -/
def resource_tags_at (inv : Inventory) (k : Option String) : Dict String String :=
  match dictGet inv.hostvars k with
  | some hv => hv.resource_tags
  | none => []

/-- The inner agent loop body: append `(logical_key, agent_type)` to the
`skipped` list when `resource_tags.get(tag_key) == 'true'`.  The source
formats the pair as the string `f"{logical_key} ({agent_type})"`; only
the pair is modelled. -/
def skip_inner (inv : Inventory) (t : VmTarget)
    (sk : List (Option String × Option String)) (a : Agent) :
    List (Option String × Option String) :=
  if dictGet (resource_tags_at inv t.logical_key) (tag_key a.type) = some "true"
  then sk ++ [(t.logical_key, a.type)]
  else sk

/-- The outer VM-target loop body of `check_skip_if_installed`. -/
def skip_vm_step (inv : Inventory)
    (sk : List (Option String × Option String)) (t : VmTarget) :
    List (Option String × Option String) :=
  (t.agents.getD []).foldl (skip_inner inv t) sk

/-- The `skipped` list `check_skip_if_installed(manifest, inventory,
state)` computes and reports (the function itself always returns `True`
after printing it; `state` is not consulted).  Empty when
`pre_checks.get('skip_if_installed', False)` is falsy. -/
def check_skip_if_installed (m : Manifest) (inv : Inventory) (state : StateLedger) :
    List (Option String × Option String) :=
  if (manifest_pre_checks m).skip_if_installed.getD false = false then []
  else (vm_targets m).foldl (skip_vm_step inv) []

theorem mem_foldl_skip_inner_of_mem (inv : Inventory) (t : VmTarget)
    (l : List Agent) (sk : List (Option String × Option String))
    (x : Option String × Option String) (h : x ∈ sk) :
    x ∈ l.foldl (skip_inner inv t) sk := by
  induction l generalizing sk with
  | nil => simpa using h
  | cons a rest ih =>
      refine ih (skip_inner inv t sk a) ?_
      unfold skip_inner
      by_cases hc : dictGet (resource_tags_at inv t.logical_key) (tag_key a.type) = some "true"
      · rw [if_pos hc]
        exact List.mem_append_left _ h
      · rwa [if_neg hc]

theorem mem_foldl_skip_inner_intro (inv : Inventory) (t : VmTarget)
    (l : List Agent) (sk : List (Option String × Option String)) (a : Agent)
    (ha : a ∈ l)
    (hc : dictGet (resource_tags_at inv t.logical_key) (tag_key a.type) = some "true") :
    (t.logical_key, a.type) ∈ l.foldl (skip_inner inv t) sk := by
  induction l generalizing sk with
  | nil => simp at ha
  | cons a1 rest ih =>
      rcases List.mem_cons.mp ha with h1 | h1
      · subst h1
        refine mem_foldl_skip_inner_of_mem inv t rest (skip_inner inv t sk a) _ ?_
        unfold skip_inner
        rw [if_pos hc]
        exact List.mem_append_right _ (List.mem_singleton.mpr rfl)
      · exact ih (skip_inner inv t sk a1) h1

theorem mem_foldl_skip_vm_of_mem (inv : Inventory) (l : List VmTarget)
    (sk : List (Option String × Option String))
    (x : Option String × Option String) (h : x ∈ sk) :
    x ∈ l.foldl (skip_vm_step inv) sk := by
  induction l generalizing sk with
  | nil => simpa using h
  | cons t rest ih =>
      exact ih (skip_vm_step inv sk t) (mem_foldl_skip_inner_of_mem inv t _ sk x h)

theorem mem_foldl_skip_vm_intro (inv : Inventory) (l : List VmTarget)
    (sk : List (Option String × Option String)) (t : VmTarget) (a : Agent)
    (ht : t ∈ l) (ha : a ∈ t.agents.getD [])
    (hc : dictGet (resource_tags_at inv t.logical_key) (tag_key a.type) = some "true") :
    (t.logical_key, a.type) ∈ l.foldl (skip_vm_step inv) sk := by
  induction l generalizing sk with
  | nil => simp at ht
  | cons t1 rest ih =>
      rcases List.mem_cons.mp ht with h1 | h1
      · subst h1
        exact mem_foldl_skip_vm_of_mem inv rest (skip_vm_step inv sk t) _
          (mem_foldl_skip_inner_intro inv t _ sk a ha hc)
      · exact ih (skip_vm_step inv sk t1) h1

/-- C5 (confirmed).  With `skip_if_installed = true`, a VM target
carrying an agent of some type whose resolved resource tags map
`"<agentType>_agent_installed"` to `"true"` is reported in the
evaluator's skipped list (`SkipAlreadyDone`) for that agent. -/
theorem check_skip_if_installed_skips (m : Manifest) (inv : Inventory)
    (state : StateLedger) (t : VmTarget) (a : Agent)
    (hskip : (manifest_pre_checks m).skip_if_installed = some true)
    (ht : t ∈ vm_targets m) (ha : a ∈ t.agents.getD [])
    (htag : dictGet (resource_tags_at inv t.logical_key) (tag_key a.type) = some "true") :
    (t.logical_key, a.type) ∈ check_skip_if_installed m inv state := by
  unfold check_skip_if_installed
  rw [hskip]
  simp only [Option.getD_some]
  rw [if_neg (by simp)]
  exact mem_foldl_skip_vm_intro inv (vm_targets m) [] t a ht ha htag

/-- An inventory resolving `vm1` with the completion marker
`agentX_agent_installed = true` in its resource tags. -/
def exInventory5 : Inventory :=
  ⟨[some "vm1"], [],
   [(some "vm1", .vm ⟨some "10.0.0.5", "opc", true, "root", some "ocid.vm",
      some "RUNNING", [⟨some "agentX", some "2.0"⟩], [("agentX_agent_installed", "true")]⟩)]⟩

/-- A manifest like `exManifest` but with `skip_if_installed = true`. -/
def exManifest5 : Manifest :=
  ⟨some "install-agents", some "1.2.0", some ⟨some [exVmTarget], none⟩,
   some ⟨some true, none⟩⟩

/-- C5 (witness). -/
theorem check_skip_if_installed_skips_witness :
    (some "vm1", some "agentX") ∈ check_skip_if_installed exManifest5 exInventory5 exLedger :=
  check_skip_if_installed_skips exManifest5 exInventory5 exLedger exVmTarget
    ⟨some "agentX", some "2.0"⟩ (by decide) (by decide) (by decide) (by decide)

/-! ## `ansible_discover_operation` — state key and manifest validation -/

/-- `build_state_key(repo_name, config_path, operation_type)`:
`f"{repo_name}/ansible/{config_path}/ansible-state-{operation_type}.json"`
(the `repo_name` argument is the bucket name, and `config_path` is the
`{cloud}/{region}` folder found by `find_operation_folder`). -/
def build_state_key (repo_name config_path operation_type : String) : String :=
  repo_name ++ "/ansible/" ++ config_path ++ "/ansible-state-" ++ operation_type ++ ".json"

/-- Modelled from the spec (§6): storage key
`{bucket}/{cloudProvider}/{region}/<ledger-file-name>-{operationType}.json`,
with the ledger file name `ansible-state` that the repository uses.
Used only to compare the claimed key shape with `build_state_key`. -/
def spec_state_key (bucket cloud region operation_type : String) : String :=
  bucket ++ "/" ++ cloud ++ "/" ++ region ++ "/ansible-state-" ++ operation_type ++ ".json"

/-- C6 (counterexample).  The ledger key the code derives contains an
`ansible/` path segment between the bucket and the cloud provider, which
the claimed format `{bucket}/{cloudProvider}/{region}/...` omits. -/
theorem build_state_key_has_ansible_segment :
    build_state_key "bkt" "oci/eu-frankfurt-1" "adb-lifecycle" =
      "bkt/ansible/oci/eu-frankfurt-1/ansible-state-adb-lifecycle.json"
    ∧ build_state_key "bkt" "oci/eu-frankfurt-1" "adb-lifecycle" ≠
        spec_state_key "bkt" "oci" "eu-frankfurt-1" "adb-lifecycle" := by
  refine ⟨rfl, ?_⟩
  decide

/-- C6 (amended).  The ledger's object-storage key is deterministically
derived from bucket, cloud provider, region and operation type as
`{bucket}/ansible/{cloudProvider}/{region}/ansible-state-{operationType}.json`. -/
theorem build_state_key_format (bucket cloud region op : String) :
    build_state_key bucket (cloud ++ "/" ++ region) op =
      bucket ++ "/ansible/" ++ cloud ++ "/" ++ region ++ "/ansible-state-" ++ op ++ ".json" := by
  unfold build_state_key
  simp [String.append_assoc]

/-- The bytes handed to `load_operation_manifest`: either structurally
malformed JSON (which makes it `sys.exit(1)`) or a parsed manifest. -/
inductive ManifestSource where
  | malformed
  | parsed (m : Manifest)
deriving DecidableEq, Repr

/-- `load_operation_manifest`, with `sys.exit(1)` modelled as an error. -/
def load_operation_manifest : ManifestSource → Except String Manifest
  | .malformed => .error "Invalid JSON in operation file"
  | .parsed m => .ok m

/-- The manifest-validation prefix of `ansible_discover_operation.main`:
parse the manifest, then exit when `operation_type` is falsy
(`if not operation_type: sys.exit(1)`). -/
def discover_operation (src : ManifestSource) : Except String (Manifest × String) :=
  match load_operation_manifest src with
  | .error e => .error e
  | .ok m =>
      if pyTruthyStr m.operation_type then .ok (m, m.operation_type.getD "")
      else .error "operation_type not found in manifest"

/-- `pre_checks.get('required_disk_space_mb', 0)`
(`ansible_precheck.check_required_disk_space`, which only reports the
requirement and always returns `True`). -/
def required_disk_space_mb (m : Manifest) : Int :=
  (manifest_pre_checks m).required_disk_space_mb.getD 0

/-- A structurally well-formed manifest whose `operation_type` is
present but the empty string. -/
def exManifest9 : Manifest := ⟨some "", none, none, none⟩

/-- C9 (counterexample).  Manifest validation also fails when
`operation_type` is present but empty (Python falsiness), so "fails iff
operationType is missing or the structure is malformed" is too weak. -/
theorem discover_operation_rejects_empty :
    exManifest9.operation_type = some ""
    ∧ (discover_operation (.parsed exManifest9)).isOk = false := by
  exact ⟨rfl, rfl⟩

/-- C9 (amended).  Manifest validation fails iff the structure is
malformed or `operation_type` is missing or falsy (empty): for a parsed
manifest success is exactly the truthiness of `operation_type`, so no
other field is mandatory; and the absent optional fields default to
`wait_for_state = true` and `timeout_minutes = 30` in the resolved
inventory host vars and `required_disk_space_mb = 0` in the
precondition evaluation. -/
theorem discover_operation_validation :
    (∀ m : Manifest, (discover_operation (.parsed m)).isOk = pyTruthyStr m.operation_type)
    ∧ (discover_operation .malformed).isOk = false
    ∧ (∀ (t : AdbTarget) (info : ResourceInfo),
        t.wait_for_state = none → (adb_host_vars t info).wait_for_state = true)
    ∧ (∀ (t : AdbTarget) (info : ResourceInfo),
        t.timeout_minutes = none → (adb_host_vars t info).timeout_minutes = 30)
    ∧ (∀ m : Manifest, (manifest_pre_checks m).required_disk_space_mb = none →
        required_disk_space_mb m = 0) := by
  refine ⟨?_, rfl, ?_, ?_, ?_⟩
  · intro m
    unfold discover_operation load_operation_manifest
    cases h : pyTruthyStr m.operation_type <;> simp [h, Except.isOk, Except.toBool]
  · intro t info h
    unfold adb_host_vars
    rw [h]
    rfl
  · intro t info h
    unfold adb_host_vars
    rw [h]
    rfl
  · intro m h
    unfold required_disk_space_mb
    rw [h]
    rfl

/-- An ADB resource info used by witnesses. -/
def exAdbInfo : ResourceInfo :=
  .adb (some "ocid.adb") (some "xdb") (some "AVAILABLE") [] [] []

/-- C9 (witness). -/
theorem discover_operation_validation_witness :
    (discover_operation (.parsed exManifest)).isOk = pyTruthyStr exManifest.operation_type
    ∧ (adb_host_vars ⟨some "db1", some "start", none, none⟩ exAdbInfo).wait_for_state = true
    ∧ (adb_host_vars ⟨some "db1", some "start", none, none⟩ exAdbInfo).timeout_minutes = 30
    ∧ required_disk_space_mb exManifest = 0 :=
  ⟨discover_operation_validation.1 exManifest,
   discover_operation_validation.2.2.1 ⟨some "db1", some "start", none, none⟩ exAdbInfo rfl,
   discover_operation_validation.2.2.2.1 ⟨some "db1", some "start", none, none⟩ exAdbInfo rfl,
   discover_operation_validation.2.2.2.2 exManifest rfl⟩

/-! ## `ansible_load_state.load_ansible_state` -/

/-- The outcome of the object-store fetch plus JSON decode inside
`load_ansible_state`: the GET succeeded and the body parsed to a ledger
document, the GET succeeded but decoding raised, or the client raised a
`ServiceError` carrying an HTTP status. -/
inductive FetchOutcome where
  | succeeded (doc : StateLedger)
  | parseFailed
  | serviceError (status : Nat)
deriving DecidableEq, Repr

/-- `load_ansible_state`: a 404 `ServiceError` yields the fresh empty
ledger `{'version': '1.0.0', 'last_updated': None, 'resources': {}}`;
any other `ServiceError` and any parse failure re-`raise`, modelled as
`Except.error`. -/
def load_ansible_state : FetchOutcome → Except String StateLedger
  | .succeeded doc => .ok doc
  | .parseFailed => .error "Error parsing state"
  | .serviceError status =>
      if status = 404 then .ok ⟨some "1.0.0", none, []⟩
      else .error "Error loading state"

/-- C7 (confirmed).  Loading the ledger returns `resources = {}` and
`version = '1.0.0'` when no ledger object exists (404 is not an error),
while a storage failure with any other status, or a parse failure, is
fatal and is not converted into an empty ledger. -/
theorem load_ansible_state_not_found (s : Nat) :
    load_ansible_state (.serviceError 404) = .ok ⟨some "1.0.0", none, []⟩
    ∧ (s ≠ 404 → (load_ansible_state (.serviceError s)).isOk = false)
    ∧ (load_ansible_state .parseFailed).isOk = false := by
  refine ⟨rfl, ?_, rfl⟩
  intro h
  simp only [load_ansible_state]
  rw [if_neg h]
  rfl

/-- C7 (witness). -/
theorem load_ansible_state_not_found_witness :
    (load_ansible_state (.serviceError 500)).isOk = false :=
  (load_ansible_state_not_found 500).2.1 (by decide)

end PlatformCI
